import Mathlib

/-!
Verification of the thermal-simulation core of the Yantra769 repository.

The development shallowly embeds, over exact rational arithmetic, the two
steady-state solvers of the repository:

- YantraThermalSimulator.solve_steady_state (src/simulation/sivaa_hotspot_thermal.py),
  a Gauss-Seidel in-place relaxation with the 5-point stencil
  T[i,j] = 0.25 * (T[i+1,j] + T[i-1,j] + T[i,j+1] + T[i,j-1] + (q*dx^2)/k),
  with q = power[i,j] * 1e6 and Dirichlet boundaries pinned to ambient;

- ThermalSimulator.solve_heat_equation (src/Y769_Emp/Emp_2_Advanced_Thermal_Sim.py),
  a Jacobi-style update T[i,j] = T_old[i,j] + 0.25*(d2Tdx2 + d2Tdy2) + q/k*0.01
  followed by re-pinning the boundary to the module constant AMBIENT_TEMP;

together with the radial power lookup (_get_yantra_power), the block power
lookup (_get_rectangular_power), the metrics analyzers of both files, and the
improvement-percentage computations of run_comparison and
analyze_thermal_performance.  Machine floats are modelled by rationals;
division by zero, which raises in the Python sources, is modelled by
Option-valued division where a claim depends on it.
-/

/-- A temperature (or power, or conductivity) field: a total function on grid
indices.  Only the values at indices below the grid size are meaningful; the
solvers never read outside that square. -/
def TField : Type := ℕ → ℕ → ℚ

/-- The configuration consumed by solve_steady_state after the simulator
constructor and the map builders have run: grid size, per-cell power density
in W per mm squared, per-cell thermal conductivity, ambient temperature in
Kelvin, grid spacing dx in meters, iteration cap and tolerance. -/
structure Cfg where
  n : ℕ
  power : ℕ → ℕ → ℚ
  kmap : ℕ → ℕ → ℚ
  ambient : ℚ
  dx : ℚ
  maxIter : ℕ
  tol : ℚ

/-- One in-place Gauss-Seidel cell update of solve_steady_state: the cell
(i, j) receives 0.25 * (T[i+1,j] + T[i-1,j] + T[i,j+1] + T[i,j-1]
+ (q * dx^2) / k) with q = power[i,j] * 1e6 (the W/mm2 to W/m2 conversion of
the source), every other cell is left unchanged. -/
def gsUpdate (c : Cfg) (T : TField) (i j : ℕ) : TField :=
  fun a b =>
    if a = i ∧ b = j then
      0.25 * (T (i + 1) j + T (i - 1) j + T i (j + 1) + T i (j - 1)
        + c.power i j * 1000000 * c.dx ^ 2 / c.kmap i j)
    else T a b

/-- The interior cells of an n-by-n grid in row-major order, exactly the
index pairs visited by the double loop for i in range(1, n-1):
for j in range(1, n-1) of the source. -/
def interiorList (n : ℕ) : List (ℕ × ℕ) :=
  (List.range (n - 2)).flatMap fun i => (List.range (n - 2)).map fun j => (i + 1, j + 1)

/-- Sequentially apply the Gauss-Seidel cell update along a list of cells,
threading the partially updated field, as the in-place double loop does. -/
def gsSweepOn (c : Cfg) (T : TField) (l : List (ℕ × ℕ)) : TField :=
  l.foldl (fun S p => gsUpdate c S p.1 p.2) T

/-- One full Gauss-Seidel sweep of solve_steady_state over all interior
cells in row-major order. -/
def gsSweep (c : Cfg) (T : TField) : TField :=
  gsSweepOn c T (interiorList c.n)

/-- All cells of the n-by-n grid, used by the convergence check. -/
def cellPairs (n : ℕ) : List (ℕ × ℕ) :=
  (List.range n).flatMap fun i => (List.range n).map fun j => (i, j)

/-- The convergence error of solve_steady_state: np.max(np.abs(T - T_old))
over the whole grid (zero for an empty grid, matching a fold start of 0,
sound because every absolute difference is nonnegative). -/
def errMax (c : Cfg) (Tnew Told : TField) : ℚ :=
  (cellPairs c.n).foldl (fun m p => max m |Tnew p.1 p.2 - Told p.1 p.2|) 0

/-- The iteration loop of solve_steady_state: each pass performs one full
sweep, then breaks if the maximal absolute change is below the tolerance;
the field is returned in either terminal state. -/
def solveLoop (c : Cfg) : ℕ → TField → TField
  | 0, T => T
  | it + 1, T =>
    if errMax c (gsSweep c T) T < c.tol then gsSweep c T
    else solveLoop c it (gsSweep c T)

/-- The field returned by solve_steady_state: the loop started from the
all-ambient initial field (the source initializes T to ones times ambient
and re-pins the boundary, which is already ambient). -/
def solveField (c : Cfg) : TField :=
  solveLoop c c.maxIter fun _ _ => c.ambient

/-- Observer of the execution of solve_steady_state: whether the early-exit
break (the printed Converged message) is taken.  The source computes this
condition but does not include it in its return value. -/
def solveConvLoop (c : Cfg) : ℕ → TField → Bool
  | 0, _ => false
  | it + 1, T =>
    if errMax c (gsSweep c T) T < c.tol then true
    else solveConvLoop c it (gsSweep c T)

/-- Whether a run of solve_steady_state reaches the CONVERGED terminal state
(rather than the iteration cap). -/
def solveConverged (c : Cfg) : Bool :=
  solveConvLoop c c.maxIter fun _ _ => c.ambient

/-- The module constant AMBIENT_TEMP = 300.0 of Emp_2_Advanced_Thermal_Sim.py,
used by solve_heat_equation for both the initial field and the boundary
re-pinning. -/
def AMBIENT_TEMP : ℚ := 300

/-- The interior update value of ThermalSimulator.solve_heat_equation:
T_old[i,j] + 0.25 * (d2Tdx2 + d2Tdy2) + q / k_eff * 0.01 with central
differences d2Tdx2 = (T_old[i+1,j] - 2 T_old[i,j] + T_old[i-1,j]) / dx^2
(same for y) and q = power[i,j] * 1e6. -/
def empUpdateVal (c : Cfg) (T : TField) (i j : ℕ) : ℚ :=
  T i j
    + 0.25 * ((T (i + 1) j - 2 * T i j + T (i - 1) j) / c.dx ^ 2
      + (T i (j + 1) - 2 * T i j + T i (j - 1)) / c.dx ^ 2)
    + c.power i j * 1000000 / c.kmap i j * 0.01

/-- One Jacobi sweep of solve_heat_equation: every interior cell is updated
from the old field, every other cell is carried over unchanged. -/
def empSweep (c : Cfg) (T : TField) : TField :=
  fun a b =>
    if 1 ≤ a ∧ a ≤ c.n - 2 ∧ 1 ≤ b ∧ b ≤ c.n - 2 then empUpdateVal c T a b
    else T a b

/-- The boundary re-pinning of solve_heat_equation, applied after every
sweep: the four edges are set to AMBIENT_TEMP. -/
def empPin (c : Cfg) (T : TField) : TField :=
  fun a b =>
    if a = 0 ∨ a = c.n - 1 ∨ b = 0 ∨ b = c.n - 1 then AMBIENT_TEMP
    else T a b

/-- One full iteration of solve_heat_equation: Jacobi sweep, then boundary
re-pinning. -/
def empStep (c : Cfg) (T : TField) : TField :=
  empPin c (empSweep c T)

/-- The radial power lookup _get_yantra_power of sivaa_hotspot_thermal.py:
a chain of comparisons r <= outer_radius over the SriYantraGeometry layer
radii, returning the power density of the first matching layer and the
boundary density 0.05 past the last radius. -/
def getYantraPower (r : ℚ) : ℚ :=
  if r ≤ 0.165 then 1.2
  else if r ≤ 0.265 then 0.8
  else if r ≤ 0.398 then 0.5
  else if r ≤ 0.463 then 0.3
  else if r ≤ 0.603 then 0.6
  else if r ≤ 0.668 then 0.4
  else if r ≤ 0.769 then 0.3
  else if r ≤ 0.887 then 0.1
  else 0.05

/-- The ordered layer profile of SriYantraGeometry: pairs of normalized
outer radius and power density, from bindu to the boundary layer. -/
def yantraProfile : List (ℚ × ℚ) :=
  [(0.165, 1.2), (0.265, 0.8), (0.398, 0.5), (0.463, 0.3), (0.603, 0.6),
   (0.668, 0.4), (0.769, 0.3), (0.887, 0.1), (1, 0.05)]

/-- Modelled from the wording of the spec for the RADIAL power lookup: the
density of the first layer whose outer radius is at least r, and the given
default past the last layer. -/
def firstLayerPower : List (ℚ × ℚ) → ℚ → ℚ → ℚ
  | [], _, dflt => dflt
  | p :: ps, r, dflt => if r ≤ p.1 then p.2 else firstLayerPower ps r dflt

/-- The spec-side radial lookup over the yantra profile, with the outermost
(boundary) density as the value past the last listed boundary. -/
def specYantraPower (r : ℚ) : ℚ :=
  firstLayerPower yantraProfile r ((yantraProfile.getLastD (1, 0.05)).2)

/-- The four core anchor positions of _get_rectangular_power for an n-by-n
grid, with cx = cy = n // 2 and core_size = n // 4. -/
def rectCores (n : ℕ) : List (ℤ × ℤ) :=
  [((n : ℤ) / 2 - (n : ℤ) / 4, (n : ℤ) / 2 - (n : ℤ) / 4),
   ((n : ℤ) / 2 - (n : ℤ) / 4, (n : ℤ) / 2 + (n : ℤ) / 4 / 2),
   ((n : ℤ) / 2 + (n : ℤ) / 4 / 2, (n : ℤ) / 2 - (n : ℤ) / 4),
   ((n : ℤ) / 2 + (n : ℤ) / 4 / 2, (n : ℤ) / 2 + (n : ℤ) / 4 / 2)]

/-- The block power lookup _get_rectangular_power: 1.2 inside any of the four
cores, 0.5 in the central cache window, 0.2 on the periphery. -/
def getRectangularPower (n : ℕ) (i j : ℤ) : ℚ :=
  if (rectCores n).any
      (fun p => decide (|i - p.1| < (n : ℤ) / 4 / 2 ∧ |j - p.2| < (n : ℤ) / 4 / 2)) then 1.2
  else if (n : ℤ) / 2 - (n : ℤ) / 3 < i ∧ i < (n : ℤ) / 2 + (n : ℤ) / 3
      ∧ (n : ℤ) / 2 - (n : ℤ) / 3 < j ∧ j < (n : ℤ) / 2 + (n : ℤ) / 3 then 0.5
  else 0.2

/-- The list of all cell values of an n-by-n field, row-major, as consumed
by the whole-array numpy statistics of analyze_thermal_performance. -/
def fullVals (n : ℕ) (T : TField) : List ℚ :=
  (List.range n).flatMap fun i => (List.range n).map fun j => T i j

/-- The interior cell values selected by the mask[5:-5, 5:-5] of
analyze_results: indices from 5 up to n - 6 in both axes, row-major. -/
def interiorVals (n : ℕ) (T : TField) : List ℚ :=
  (List.range (n - 10)).flatMap fun i =>
    (List.range (n - 10)).map fun j => T (i + 5) (j + 5)

/-- np.max over a list of values (head-seeded fold; the sources only apply
it to nonempty selections). -/
def maxD (l : List ℚ) : ℚ := l.foldl max (l.headD 0)

/-- np.min over a list of values (head-seeded fold). -/
def minD (l : List ℚ) : ℚ := l.foldl min (l.headD 0)

/-- np.mean over a list of values. -/
def meanD (l : List ℚ) : ℚ := l.sum / l.length

/-- The square of np.std over a list of values (population variance,
ddof = 0); the sources only ever compare the std or count against
thresholds, which the variance determines exactly. -/
def varD (l : List ℚ) : ℚ := (l.map fun x => (x - meanD l) ^ 2).sum / l.length

/-- np.sum of a strict-threshold comparison: the number of values strictly
above thr. -/
def countAbove (l : List ℚ) (thr : ℚ) : ℕ :=
  l.countP fun x => decide (thr < x)

/-- The statistics record produced by YantraThermalSimulator.analyze_results,
with the standard deviation carried as its square (variance), which is an
exact rational. -/
structure YMetrics where
  peak : ℚ
  tmin : ℚ
  mean : ℚ
  variance : ℚ
  hotspots : ℕ
deriving DecidableEq

/-- YantraThermalSimulator.analyze_results: statistics over the interior
selection mask[5:-5, 5:-5], and the hotspot count of interior cells strictly
above min + 0.9 * (peak - min). -/
def analyzeResults (n : ℕ) (T : TField) : YMetrics :=
  { peak := maxD (interiorVals n T)
    tmin := minD (interiorVals n T)
    mean := meanD (interiorVals n T)
    variance := varD (interiorVals n T)
    hotspots := countAbove (interiorVals n T)
      (minD (interiorVals n T) + 0.9 * (maxD (interiorVals n T) - minD (interiorVals n T))) }

/-- The hotspot count of ThermalSimulator.analyze_thermal_performance:
np.sum(T > mean + 2 * std) over the WHOLE field.  Since std is nonnegative,
x > mean + 2 * std holds exactly when x > mean and (x - mean)^2 > 4 * var,
which is the exact rational form used here. -/
def empHotspotCount (n : ℕ) (T : TField) : ℕ :=
  (fullVals n T).countP fun x =>
    decide (meanD (fullVals n T) < x
      ∧ 4 * varD (fullVals n T) < (x - meanD (fullVals n T)) ^ 2)

/-- Division as performed on Python floats in run_comparison: a zero
denominator raises ZeroDivisionError, modelled as none. -/
def qdiv (a b : ℚ) : Option ℚ :=
  if b = 0 then none else some (a / b)

/-- The peak-temperature reduction percentage computed by run_comparison:
(rect_peak - yantra_peak) / (rect_peak - ambient) * 100. -/
def sivaaPeakReduction (rp yp amb : ℚ) : Option ℚ :=
  (qdiv (rp - yp) (rp - amb)).map (· * 100)

/-- The uniformity improvement percentage computed by run_comparison:
(rect_std - yantra_std) / rect_std * 100. -/
def sivaaUniformityImprovement (rs ys : ℚ) : Option ℚ :=
  (qdiv (rs - ys) rs).map (· * 100)

/-- The hotspot reduction percentage computed by run_comparison:
(rect_count - yantra_count) / max(1, rect_count) * 100. -/
def sivaaHotspotReduction (rh yh : ℚ) : Option ℚ :=
  (qdiv (rh - yh) (max 1 rh)).map (· * 100)

/-- The hotspot reduction percentage of analyze_thermal_performance in
Emp_2_Advanced_Thermal_Sim.py, guarded by the baseline count:
(a - b) / a * 100 if a > 0 else 0. -/
def empHotspotReduction (rh yh : ℚ) : ℚ :=
  if 0 < rh then (rh - yh) / rh * 100 else 0

/-- The state produced by the YantraThermalSimulator constructor: die size
converted from millimeters to meters, grid size, ambient temperature, and
grid spacing dx = die_size / grid_size.  The constructor performs no
validation of any argument. -/
structure SimInit where
  dieSize : ℚ
  gridSize : ℕ
  ambient : ℚ
  dx : ℚ

/-- YantraThermalSimulator.__init__, which accepts every input unchecked:
no bound on die_size_mm, no lower bound on grid_size, no check on the
ambient temperature. -/
def yantraSimInit (die_size_mm : ℚ) (grid_size : ℕ) (ambient_temp : ℚ) : SimInit :=
  { dieSize := die_size_mm * (1 / 1000)
    gridSize := grid_size
    ambient := ambient_temp
    dx := die_size_mm * (1 / 1000) / grid_size }

/-- The solver configuration assembled by solve_steady_state from the
constructor state and the two maps, with its default iteration cap 5000 and
tolerance 1e-6. -/
def solveCfg (s : SimInit) (power kmap : ℕ → ℕ → ℚ) : Cfg :=
  { n := s.gridSize
    power := power
    kmap := kmap
    ambient := s.ambient
    dx := s.dx
    maxIter := 5000
    tol := 1 / 1000000 }

/-- A concrete 3-by-3 zero-power configuration whose single interior update
reproduces the ambient value, so the first convergence check fires. -/
def cfgConv : Cfg :=
  { n := 3
    power := fun _ _ => 0
    kmap := fun _ _ => 148
    ambient := 300
    dx := 1 / 5
    maxIter := 1
    tol := 1 }

/-- The same concrete configuration as cfgConv but with tolerance 0, so the
strict convergence test errMax < tol can never fire and the run stops only
at the iteration cap. -/
def cfgCap : Cfg :=
  { n := 3
    power := fun _ _ => 0
    kmap := fun _ _ => 148
    ambient := 300
    dx := 1 / 5
    maxIter := 1
    tol := 0 }

/-- A concrete 4-by-4 configuration with uniform unit power, used to witness
the Gauss-Seidel stencil characterization. -/
def cfgW : Cfg :=
  { n := 4
    power := fun _ _ => 1
    kmap := fun _ _ => 2
    ambient := 300
    dx := 1
    maxIter := 1
    tol := 1 }

/-- A concrete all-ambient field. -/
def fieldW : TField := fun _ _ => 300

/-- A concrete 3-by-3 field holding four cells at 10 and five cells at 0,
on which the two hotspot rules of the repository disagree. -/
def exF4 : TField := fun a b => if a = 0 ∨ (a = 1 ∧ b = 0) then 10 else 0

/-- A concrete 11-by-11 all-constant field. -/
def fieldA11 : TField := fun _ _ => 300

/-- A concrete field that differs from fieldA11 exactly on the first row,
which lies outside the margin-5 interior of an 11-by-11 grid. -/
def fieldB11 : TField := fun a _ => if a = 0 then 999 else 300

lemma gsUpdate_ne (c : Cfg) (T : TField) (i j a b : ℕ) (h : ¬(a = i ∧ b = j)) :
    gsUpdate c T i j a b = T a b := by
  simp only [gsUpdate, if_neg h]

lemma gsSweepOn_not_mem (c : Cfg) (l : List (ℕ × ℕ)) :
    ∀ (T : TField) (a b : ℕ), (a, b) ∉ l → gsSweepOn c T l a b = T a b := by
  induction l with
  | nil => intro T a b _; rfl
  | cons p ps ih =>
    intro T a b h
    have h1 : (a, b) ∉ ps := fun hm => h (List.mem_cons_of_mem _ hm)
    have h2 : gsSweepOn c T (p :: ps) = gsSweepOn c (gsUpdate c T p.1 p.2) ps := rfl
    rw [h2, ih _ a b h1]
    apply gsUpdate_ne
    rintro ⟨ha, hb⟩
    exact h (by simp [ha, hb, Prod.ext_iff])

lemma gsSweepOn_append (c : Cfg) (T : TField) (l1 l2 : List (ℕ × ℕ)) :
    gsSweepOn c T (l1 ++ l2) = gsSweepOn c (gsSweepOn c T l1) l2 := by
  simp only [gsSweepOn, List.foldl_append]

lemma mem_interiorList (n a b : ℕ) :
    (a, b) ∈ interiorList n ↔ 1 ≤ a ∧ a < n - 1 ∧ 1 ≤ b ∧ b < n - 1 := by
  simp only [interiorList, List.mem_flatMap, List.mem_map, List.mem_range, Prod.mk.injEq]
  constructor
  · rintro ⟨i, hi, j, hj, h1, h2⟩
    omega
  · rintro ⟨h1, h2, h3, h4⟩
    exact ⟨a - 1, by omega, b - 1, by omega, by omega, by omega⟩

lemma gsSweepOn_pres (c : Cfg) (P : TField → Prop)
    (hP : ∀ (T : TField) (i j : ℕ), P T → P (gsUpdate c T i j)) :
    ∀ (l : List (ℕ × ℕ)) (T : TField), P T → P (gsSweepOn c T l) := by
  intro l
  induction l with
  | nil => intro T h; exact h
  | cons p ps ih => intro T h; exact ih _ (hP _ _ _ h)

lemma solveLoop_pres (c : Cfg) (P : TField → Prop)
    (hP : ∀ T : TField, P T → P (gsSweep c T)) :
    ∀ (it : ℕ) (T : TField), P T → P (solveLoop c it T) := by
  intro it
  induction it with
  | zero => intro T h; exact h
  | succ k ih =>
    intro T h
    simp only [solveLoop]
    split
    · exact hP T h
    · exact ih _ (hP T h)

/-- Claim C3: in the RADIAL power map, the lookup of _get_yantra_power gives
every radius the density of the first layer whose normalized outer radius is
at least the given radius, a radius exactly on a boundary falls to the inner
layer through the non-strict comparisons, and a radius past the last listed
boundary receives the outermost (boundary) density. -/
theorem c3_theorem : ∀ r : ℚ, getYantraPower r = specYantraPower r := by
  intro r
  simp only [getYantraPower, specYantraPower, yantraProfile, firstLayerPower,
    List.getLastD]
  norm_num

/-- Claim C5, counterexample: run_comparison computes the peak-temperature
improvement as (rect - yantra) / (rect - ambient) * 100, not as the claimed
(rect - yantra) / rect * 100; at rect peak 320 K, yantra peak 310 K and
ambient 300 K the code yields 50 percent while the claimed formula yields
25/8 percent. -/
theorem c5_counterexample :
    sivaaPeakReduction 320 310 300 = some 50
    ∧ sivaaPeakReduction 320 310 300 ≠ some ((320 - 310) / 320 * 100) := by
  constructor
  · norm_num [sivaaPeakReduction, qdiv]
  · norm_num [sivaaPeakReduction, qdiv]

/-- Claim C5 (amended): the uniformity and (for a baseline of at least one)
hotspot improvements of run_comparison follow the exact formula
(a - b) / a * 100, and rect std 12 with radial std 9 gives exactly 25
percent; the peak-temperature improvement instead divides by the baseline
peak minus the ambient temperature. -/
theorem c5_theorem (a b amb : ℚ) :
    sivaaUniformityImprovement 12 9 = some 25
    ∧ (a ≠ 0 → sivaaUniformityImprovement a b = some ((a - b) / a * 100))
    ∧ (1 ≤ a → sivaaHotspotReduction a b = some ((a - b) / a * 100))
    ∧ (a - amb ≠ 0 → sivaaPeakReduction a b amb = some ((a - b) / (a - amb) * 100)) := by
  refine ⟨by norm_num [sivaaUniformityImprovement, qdiv], ?_, ?_, ?_⟩
  · intro h
    simp [sivaaUniformityImprovement, qdiv, h]
  · intro h
    have h0 : max 1 a = a := max_eq_right h
    have h1 : a ≠ 0 := by intro h2; rw [h2] at h; linarith
    simp [sivaaHotspotReduction, qdiv, h0, h1]
  · intro h
    simp [sivaaPeakReduction, qdiv, h]

/-- Witness for c5_theorem at the literal inputs of the claim. -/
theorem c5_witness :
    sivaaUniformityImprovement 12 9 = some 25
    ∧ sivaaHotspotReduction 4 1 = some ((4 - 1) / 4 * 100) :=
  ⟨(c5_theorem 1 0 0).1, (c5_theorem 4 1 0).2.2.1 (by norm_num)⟩

/-- Claim C6, counterexample: a zero rectangular standard deviation makes
run_comparison divide by zero (a raised error, modelled by none), rather
than return a zero improvement. -/
theorem c6_counterexample :
    sivaaUniformityImprovement 0 5 = none
    ∧ sivaaUniformityImprovement 0 5 ≠ some 0 := by
  constructor
  · simp [sivaaUniformityImprovement, qdiv]
  · simp [sivaaUniformityImprovement, qdiv]

/-- Claim C6 (amended): only the hotspot-count improvement is guarded
against a zero baseline: Emp_2 returns 0 percent outright, and run_comparison
divides by max(1, count), which returns 0 percent only when the radial count
is also 0; the peak-temperature and uniformity improvements are unguarded
and a zero baseline raises a division error. -/
theorem c6_theorem : ∀ b : ℚ,
    empHotspotReduction 0 b = 0
    ∧ sivaaHotspotReduction 0 0 = some 0
    ∧ sivaaHotspotReduction 0 b = some ((0 - b) / 1 * 100) := by
  intro b
  refine ⟨?_, ?_, ?_⟩
  · simp [empHotspotReduction]
  · norm_num [sivaaHotspotReduction, qdiv]
  · norm_num [sivaaHotspotReduction, qdiv]

/-- Claim C1 (amended): in solve_steady_state, a Gauss-Seidel sweep visits
the interior cells in row-major order and writes to each visited cell (i, j)
exactly 0.25 * (T[i+1,j] + T[i-1,j] + T[i,j+1] + T[i,j-1] + (q * dx^2) / k)
evaluated on the current (partially updated) field, with q the power-map
value converted by 1e6 and k the conductivity-map value; the Emp_2
solve_heat_equation uses a different update and is covered by the
counterexample. -/
theorem c1_theorem (c : Cfg) (T : TField) (l1 l2 : List (ℕ × ℕ)) (i j : ℕ)
    (hsplit : interiorList c.n = l1 ++ (i, j) :: l2) (hnot : (i, j) ∉ l2) :
    gsSweep c T i j
      = 0.25 * (gsSweepOn c T l1 (i + 1) j + gsSweepOn c T l1 (i - 1) j
        + gsSweepOn c T l1 i (j + 1) + gsSweepOn c T l1 i (j - 1)
        + c.power i j * 1000000 * c.dx ^ 2 / c.kmap i j) := by
  have h1 : gsSweep c T = gsSweepOn c (gsSweepOn c T l1) ((i, j) :: l2) := by
    rw [gsSweep, hsplit, gsSweepOn_append]
  have h2 : gsSweepOn c (gsSweepOn c T l1) ((i, j) :: l2)
      = gsSweepOn c (gsUpdate c (gsSweepOn c T l1) i j) l2 := rfl
  rw [h1, h2, gsSweepOn_not_mem c l2 _ i j hnot]
  simp [gsUpdate]

/-- Witness for c1_theorem: on the 4-by-4 configuration, the cell (1, 2) is
the second visited cell, after the single-cell run over (1, 1). -/
theorem c1_witness :
    gsSweep cfgW fieldW 1 2
      = 0.25 * (gsSweepOn cfgW fieldW [(1, 1)] 2 2 + gsSweepOn cfgW fieldW [(1, 1)] 0 2
        + gsSweepOn cfgW fieldW [(1, 1)] 1 3 + gsSweepOn cfgW fieldW [(1, 1)] 1 1
        + cfgW.power 1 2 * 1000000 * cfgW.dx ^ 2 / cfgW.kmap 1 2) :=
  c1_theorem cfgW fieldW [(1, 1)] [(2, 1), (2, 2)] 1 2 (by decide) (by decide)

/-- Claim C1, counterexample: the interior update of solve_heat_equation in
Emp_2_Advanced_Thermal_Sim.py is T_old + 0.25 * (d2Tdx2 + d2Tdy2)
+ q / k * 0.01, which differs from the claimed 5-point stencil already on a
uniform 300 K field with unit power, unit spacing and conductivity 2. -/
theorem c1_counterexample :
    empSweep cfgW fieldW 1 1
      ≠ 0.25 * (fieldW 2 1 + fieldW 0 1 + fieldW 1 2 + fieldW 1 0
        + cfgW.power 1 1 * 1000000 * cfgW.dx ^ 2 / cfgW.kmap 1 1) := by
  norm_num [empSweep, empUpdateVal, fieldW, cfgW]

/-- Claim C2: in both solvers, a boundary cell (first or last row or column)
is never written by the interior sweep, and it holds the ambient temperature
at every iteration checkpoint and in the final returned field. -/
theorem c2_theorem (c : Cfg) (i j : ℕ)
    (hb : i = 0 ∨ i = c.n - 1 ∨ j = 0 ∨ j = c.n - 1) :
    (∀ T : TField, gsSweep c T i j = T i j)
    ∧ (∀ m : ℕ, (gsSweep c)^[m] (fun _ _ => c.ambient) i j = c.ambient)
    ∧ solveField c i j = c.ambient
    ∧ (∀ T : TField, empSweep c T i j = T i j)
    ∧ (∀ m : ℕ, (empStep c)^[m] (fun _ _ => AMBIENT_TEMP) i j = AMBIENT_TEMP) := by
  have hmem : (i, j) ∉ interiorList c.n := by
    rw [mem_interiorList]
    omega
  have h1 : ∀ T : TField, gsSweep c T i j = T i j := fun T =>
    gsSweepOn_not_mem c (interiorList c.n) T i j hmem
  have h2 : ∀ m : ℕ, (gsSweep c)^[m] (fun _ _ => c.ambient) i j = c.ambient := by
    intro m
    induction m with
    | zero => rfl
    | succ k ih => rw [Function.iterate_succ_apply', h1, ih]
  have h3 : solveField c i j = c.ambient := by
    have := solveLoop_pres c (fun T => T i j = c.ambient)
      (fun T h => by show gsSweep c T i j = c.ambient; rw [h1 T]; exact h)
      c.maxIter (fun _ _ => c.ambient) rfl
    exact this
  have h4 : ∀ T : TField, empSweep c T i j = T i j := by
    intro T
    simp only [empSweep]
    rw [if_neg]
    omega
  have h5 : ∀ m : ℕ, (empStep c)^[m] (fun _ _ => AMBIENT_TEMP) i j = AMBIENT_TEMP := by
    intro m
    induction m with
    | zero => rfl
    | succ k ih =>
      rw [Function.iterate_succ_apply']
      simp only [empStep, empPin]
      rw [if_pos hb]
  exact ⟨h1, h2, h3, h4, h5⟩

/-- Witness for c2_theorem at the boundary cell (0, 2) of the concrete
4-by-4 configuration. -/
theorem c2_witness :
    solveField cfgW 0 2 = cfgW.ambient ∧ gsSweep cfgW fieldW 0 2 = fieldW 0 2 :=
  ⟨(c2_theorem cfgW 0 2 (Or.inl rfl)).2.2.1, (c2_theorem cfgW 0 2 (Or.inl rfl)).1 fieldW⟩

/-- Claim C7: with an all-zero power map and the boundary at the initial
ambient temperature, the all-ambient field is a fixed point of the sweep,
every iterate stays all-ambient, and the returned field of
solve_steady_state equals ambient at every cell. -/
theorem c7_theorem (c : Cfg) (hp : ∀ i j, c.power i j = 0) :
    (∀ (m a b : ℕ), (gsSweep c)^[m] (fun _ _ => c.ambient) a b = c.ambient)
    ∧ (∀ a b : ℕ, solveField c a b = c.ambient) := by
  have hupd : ∀ (T : TField) (i j : ℕ), (∀ a b, T a b = c.ambient) →
      ∀ a b, gsUpdate c T i j a b = c.ambient := by
    intro T i j h a b
    simp only [gsUpdate]
    split
    · rw [h, h, h, h, hp]
      ring_nf
    · exact h a b
  have hsw : ∀ T : TField, (∀ a b, T a b = c.ambient) →
      ∀ a b, gsSweep c T a b = c.ambient := by
    intro T h
    exact gsSweepOn_pres c (fun S => ∀ a b, S a b = c.ambient) hupd (interiorList c.n) T h
  have hit : ∀ (m a b : ℕ), (gsSweep c)^[m] (fun _ _ => c.ambient) a b = c.ambient := by
    intro m
    induction m with
    | zero => intro a b; rfl
    | succ k ih =>
      intro a b
      rw [Function.iterate_succ_apply']
      exact hsw _ ih a b
  refine ⟨hit, ?_⟩
  exact solveLoop_pres c (fun T => ∀ a b, T a b = c.ambient) hsw
    c.maxIter (fun _ _ => c.ambient) (fun _ _ => rfl)

/-- Witness for c7_theorem on the concrete zero-power configuration. -/
theorem c7_witness : solveField cfgConv 1 1 = cfgConv.ambient :=
  (c7_theorem cfgConv (fun _ _ => rfl)).2 1 1

/-- Claim C10: with a nonnegative power map and a strictly positive
conductivity map, every cell stays at or above ambient after every sweep and
in the returned field, because each update is a convex average of
at-least-ambient neighbors plus a nonnegative source term; the repository
power getters indeed only produce nonnegative densities. -/
theorem c10_theorem (c : Cfg) (hp : ∀ i j, 0 ≤ c.power i j)
    (hk : ∀ i j, 0 < c.kmap i j) :
    (∀ (m a b : ℕ), c.ambient ≤ (gsSweep c)^[m] (fun _ _ => c.ambient) a b)
    ∧ (∀ a b : ℕ, c.ambient ≤ solveField c a b)
    ∧ (∀ r : ℚ, 0 ≤ getYantraPower r)
    ∧ (∀ (n : ℕ) (i j : ℤ), 0 ≤ getRectangularPower n i j) := by
  have hupd : ∀ (T : TField) (i j : ℕ), (∀ a b, c.ambient ≤ T a b) →
      ∀ a b, c.ambient ≤ gsUpdate c T i j a b := by
    intro T i j h a b
    simp only [gsUpdate]
    split
    · have h1 := h (i + 1) j
      have h2 := h (i - 1) j
      have h3 := h i (j + 1)
      have h4 := h i (j - 1)
      have hq : 0 ≤ c.power i j * 1000000 * c.dx ^ 2 / c.kmap i j := by
        apply div_nonneg
        · exact mul_nonneg (mul_nonneg (hp i j) (by norm_num)) (sq_nonneg _)
        · exact (hk i j).le
      linarith
    · exact h a b
  have hsw : ∀ T : TField, (∀ a b, c.ambient ≤ T a b) →
      ∀ a b, c.ambient ≤ gsSweep c T a b := by
    intro T h
    exact gsSweepOn_pres c (fun S => ∀ a b, c.ambient ≤ S a b) hupd (interiorList c.n) T h
  have hit : ∀ (m a b : ℕ), c.ambient ≤ (gsSweep c)^[m] (fun _ _ => c.ambient) a b := by
    intro m
    induction m with
    | zero => intro a b; exact le_refl _
    | succ k ih =>
      intro a b
      rw [Function.iterate_succ_apply']
      exact hsw _ ih a b
  refine ⟨hit, ?_, ?_, ?_⟩
  · exact solveLoop_pres c (fun T => ∀ a b, c.ambient ≤ T a b) hsw
      c.maxIter (fun _ _ => c.ambient) (fun _ _ => le_refl _)
  · intro r
    simp only [getYantraPower]
    split_ifs <;> norm_num
  · intro n i j
    simp only [getRectangularPower]
    split_ifs <;> norm_num

/-- Witness for c10_theorem on the concrete zero-power configuration. -/
theorem c10_witness : cfgConv.ambient ≤ solveField cfgConv 2 2 :=
  (c10_theorem cfgConv (fun _ _ => le_refl 0) (fun _ _ => by norm_num [cfgConv])).2.1 2 2

/-- Claim C8 (the specified validation is absent from the code): the
constructor accepts a negative die size and a grid size of 2 without any
check, and solve_steady_state then runs to completion and returns a field
instead of failing fast, for every power and conductivity map. -/
theorem c8_theorem (p k : ℕ → ℕ → ℚ) (a b : ℕ) :
    (yantraSimInit (-1) 2 300).dieSize = -(1 / 1000)
    ∧ solveField (solveCfg (yantraSimInit (-1) 2 300) p k) a b = 300 := by
  constructor
  · norm_num [yantraSimInit]
  · exact solveLoop_pres (solveCfg (yantraSimInit (-1) 2 300) p k)
      (fun T => ∀ x y, T x y = 300) (fun T h => h)
      5000 (fun _ _ => 300) (fun _ _ => rfl) a b

lemma list_map_congr {α β : Type} (l : List α) (f g : α → β)
    (h : ∀ a ∈ l, f a = g a) : l.map f = l.map g := by
  induction l with
  | nil => rfl
  | cons x xs ih =>
    simp only [List.map_cons]
    rw [h x (List.mem_cons_self x xs), ih fun a ha => h a (List.mem_cons_of_mem x ha)]

lemma interiorVals_congr (n : ℕ) (T T' : TField)
    (h : ∀ i j, 5 ≤ i → i < n - 5 → 5 ≤ j → j < n - 5 → T i j = T' i j) :
    interiorVals n T = interiorVals n T' := by
  simp only [interiorVals]
  apply List.flatMap_congr
  intro i hi
  apply list_map_congr
  intro j hj
  rw [List.mem_range] at hi hj
  exact h (i + 5) (j + 5) (by omega) (by omega) (by omega) (by omega)

/-- Claim C4 (amended): analyze_results in sivaa_hotspot_thermal.py computes
all its statistics from the interior selection with margin 5 only (two
fields agreeing there get identical metrics), and its hotspot count is the
number of those interior cells strictly above min + 0.9 * (max - min) with
min and max recomputed from the same selection; the Emp_2 analyzer instead
uses whole-field statistics and a mean plus two standard deviations rule,
refuted by the counterexample. -/
theorem c4_theorem (n : ℕ) (T T' : TField)
    (h : ∀ i j, 5 ≤ i → i < n - 5 → 5 ≤ j → j < n - 5 → T i j = T' i j) :
    analyzeResults n T = analyzeResults n T'
    ∧ (analyzeResults n T).hotspots
      = countAbove (interiorVals n T)
        (minD (interiorVals n T)
          + 0.9 * (maxD (interiorVals n T) - minD (interiorVals n T))) := by
  have he := interiorVals_congr n T T' h
  exact ⟨by simp only [analyzeResults, he], rfl⟩

/-- Witness for c4_theorem: an 11-by-11 constant field and a field differing
from it on the first row only give identical metrics. -/
theorem c4_witness :
    analyzeResults 11 fieldA11 = analyzeResults 11 fieldB11
    ∧ (analyzeResults 11 fieldA11).hotspots
      = countAbove (interiorVals 11 fieldA11)
        (minD (interiorVals 11 fieldA11)
          + 0.9 * (maxD (interiorVals 11 fieldA11) - minD (interiorVals 11 fieldA11))) :=
  c4_theorem 11 fieldA11 fieldB11
    (fun i j h1 _ _ _ => by
      show (300 : ℚ) = fieldB11 i j
      simp only [fieldB11]
      rw [if_neg (by omega)])

/-- Claim C4, counterexample: the analyzer of Emp_2_Advanced_Thermal_Sim.py
counts hotspots as whole-field cells above mean plus two standard
deviations; on a 3-by-3 field with four cells at 10 and five at 0 it counts
0 hotspots, while the claimed min + 0.9 * (max - min) rule counts 4. -/
theorem c4_counterexample :
    empHotspotCount 3 exF4 ≠ countAbove (fullVals 3 exF4)
      (minD (fullVals 3 exF4) + 0.9 * (maxD (fullVals 3 exF4) - minD (fullVals 3 exF4))) := by
  have hl : fullVals 3 exF4 = [10, 10, 10, 10, 0, 0, 0, 0, 0] := by
    norm_num [fullVals, exF4, List.range_succ]
  norm_num [empHotspotCount, countAbove, hl, meanD, varD, minD, maxD,
    List.countP_cons, List.countP_nil]

lemma errFold_const (T : TField) : ∀ (l : List (ℕ × ℕ)) (m : ℚ), 0 ≤ m →
    l.foldl (fun m p => max m |T p.1 p.2 - T p.1 p.2|) m = m := by
  intro l
  induction l with
  | nil => intro m _; rfl
  | cons p ps ih =>
    intro m h
    rw [List.foldl_cons]
    show List.foldl (fun x q => max x |T q.1 q.2 - T q.1 q.2|)
      (max m |T p.1 p.2 - T p.1 p.2|) ps = m
    rw [sub_self, abs_zero, max_eq_left h]
    exact ih m h

lemma errMax_self (c : Cfg) (T : TField) : errMax c T T = 0 :=
  errFold_const T (cellPairs c.n) 0 le_rfl

lemma solveLoop_succ (c : Cfg) (it : ℕ) (T : TField) :
    solveLoop c (it + 1) T
      = if errMax c (gsSweep c T) T < c.tol then gsSweep c T
        else solveLoop c it (gsSweep c T) := rfl

lemma solveConvLoop_succ (c : Cfg) (it : ℕ) (T : TField) :
    solveConvLoop c (it + 1) T
      = if errMax c (gsSweep c T) T < c.tol then true
        else solveConvLoop c it (gsSweep c T) := rfl

lemma gsSweep_conv_fix : gsSweep cfgConv (fun _ _ => (300 : ℚ)) = fun _ _ => (300 : ℚ) := by
  funext a b
  show gsUpdate cfgConv (fun _ _ => (300 : ℚ)) 1 1 a b = 300
  simp only [gsUpdate]
  split
  · norm_num [cfgConv]
  · rfl

lemma gsSweep_cap_fix : gsSweep cfgCap (fun _ _ => (300 : ℚ)) = fun _ _ => (300 : ℚ) := by
  funext a b
  show gsUpdate cfgCap (fun _ _ => (300 : ℚ)) 1 1 a b = 300
  simp only [gsUpdate]
  split
  · norm_num [cfgCap]
  · rfl

lemma solveLoop_cap (c : Cfg) : ∀ (it : ℕ) (T : TField),
    solveConvLoop c it T = false → solveLoop c it T = (gsSweep c)^[it] T := by
  intro it
  induction it with
  | zero => intro T _; rfl
  | succ k ih =>
    intro T h
    rw [solveConvLoop_succ] at h
    by_cases hc : errMax c (gsSweep c T) T < c.tol
    · rw [if_pos hc] at h
      simp at h
    · rw [if_neg hc] at h
      rw [solveLoop_succ, if_neg hc, ih _ h, ← Function.iterate_succ_apply]

/-- Claim C9 (amended): a run of solve_steady_state that never meets the
tolerance still returns a field and no error, namely the best-effort result
of exactly max_iter sweeps; but the terminal state is only printed, not part
of the returned value, so it is not recoverable from the result (see the
counterexample). -/
theorem c9_theorem (c : Cfg) (h : solveConverged c = false) :
    solveField c = (gsSweep c)^[c.maxIter] fun _ _ => c.ambient :=
  solveLoop_cap c c.maxIter _ h

/-- Witness for c9_theorem on the concrete zero-tolerance configuration,
whose run stops only at the iteration cap. -/
theorem c9_witness :
    solveField cfgCap = (gsSweep cfgCap)^[cfgCap.maxIter] fun _ _ => cfgCap.ambient := by
  apply c9_theorem cfgCap
  show solveConvLoop cfgCap 1 (fun _ _ => (300 : ℚ)) = false
  rw [solveConvLoop_succ]
  rw [show errMax cfgCap (gsSweep cfgCap fun _ _ => (300 : ℚ)) (fun _ _ => (300 : ℚ)) = 0 from
    by rw [gsSweep_cap_fix]; exact errMax_self cfgCap _]
  rw [if_neg (show ¬((0 : ℚ) < cfgCap.tol) by norm_num [cfgCap])]
  rfl

/-- Claim C9, counterexample: two runs of solve_steady_state that differ
only in tolerance return identical fields although one reaches CONVERGED
and the other the iteration cap, so the caller cannot tell the terminal
state from the result (the source returns only the bare field). -/
theorem c9_counterexample :
    solveField cfgConv = solveField cfgCap
    ∧ solveConverged cfgConv = true ∧ solveConverged cfgCap = false := by
  have e1 : errMax cfgConv (gsSweep cfgConv fun _ _ => (300 : ℚ)) (fun _ _ => (300 : ℚ)) = 0 := by
    rw [gsSweep_conv_fix]; exact errMax_self cfgConv _
  have e2 : errMax cfgCap (gsSweep cfgCap fun _ _ => (300 : ℚ)) (fun _ _ => (300 : ℚ)) = 0 := by
    rw [gsSweep_cap_fix]; exact errMax_self cfgCap _
  refine ⟨?_, ?_, ?_⟩
  · show solveLoop cfgConv 1 (fun _ _ => (300 : ℚ)) = solveLoop cfgCap 1 (fun _ _ => (300 : ℚ))
    rw [solveLoop_succ, solveLoop_succ, e1, e2]
    rw [if_pos (show (0 : ℚ) < cfgConv.tol by norm_num [cfgConv])]
    rw [if_neg (show ¬((0 : ℚ) < cfgCap.tol) by norm_num [cfgCap])]
    rw [gsSweep_conv_fix]
    show (fun _ _ => (300 : ℚ)) = solveLoop cfgCap 0 (gsSweep cfgCap fun _ _ => (300 : ℚ))
    rw [show solveLoop cfgCap 0 (gsSweep cfgCap fun _ _ => (300 : ℚ))
        = gsSweep cfgCap fun _ _ => (300 : ℚ) from rfl]
    rw [gsSweep_cap_fix]
  · show solveConvLoop cfgConv 1 (fun _ _ => (300 : ℚ)) = true
    rw [solveConvLoop_succ, e1, if_pos (show (0 : ℚ) < cfgConv.tol by norm_num [cfgConv])]
  · show solveConvLoop cfgCap 1 (fun _ _ => (300 : ℚ)) = false
    rw [solveConvLoop_succ, e2, if_neg (show ¬((0 : ℚ) < cfgCap.tol) by norm_num [cfgCap])]
    rfl

/-- Witness for c3_theorem at a boundary-tie radius and at a radius past the
last layer. -/
theorem c3_witness :
    getYantraPower 0.165 = specYantraPower 0.165 ∧ getYantraPower 2 = specYantraPower 2 :=
  ⟨c3_theorem 0.165, c3_theorem 2⟩

/-- Witness for c6_theorem at a nonzero radial count with zero baseline. -/
theorem c6_witness : empHotspotReduction 0 7 = 0 :=
  (c6_theorem 7).1

/-- Witness for c8_theorem at the zero power map and silicon conductivity. -/
theorem c8_witness :
    (yantraSimInit (-1) 2 300).dieSize = -(1 / 1000)
    ∧ solveField (solveCfg (yantraSimInit (-1) 2 300) (fun _ _ => 0) (fun _ _ => 148)) 1 1 = 300 :=
  c8_theorem (fun _ _ => 0) (fun _ _ => 148) 1 1
